import Mathlib

/-!
Verification of the peer-to-peer network message codec (`src/network/message.rs`
and `src/network/message_bloom_filter.rs`): the command-string codec, the
message envelope (`RawNetworkMessage`) encoder and decoder, the payload
dispatch table, and the specialized block-header list codec.

The byte-level embedding models a byte as a `Nat` (encoders only emit values
below 256) and a stream as a `List Nat` consumed from the front.  Fallible
operations return `Except Err`, where `Err` mirrors the library error type.
Collaborators of the module that live outside the two source files (the
`CheckedData` checksum frame, the `VarInt` count primitive, the double-hash
function, the external payload types and the `MAX_VEC_SIZE` bound) are
modelled from the specification; each such definition is marked
`Modelled from the spec:` in its doc comment.
-/

namespace NetworkCodec

/-- Wire bytes are modelled as natural numbers; encoders only produce values
below 256 and decoders return input values unchanged. -/
abbrev Bytes := List Nat

/-- Model of the library error type as used by this module.
`unrecognizedNetworkCommand` is the constructor the code raises both for an
over-long command string on encode (the spec calls that case `CommandTooLong`)
and for an unknown command token on decode (the spec's `UnrecognizedCommand`);
`oversizedVectorAllocation` is the spec's `OversizedAllocation {requested, max}`;
`parseFailed` carries the reason of a structural protocol violation;
`checksumMismatch` is the checksum-frame integrity failure; `truncated` is the
short-read / insufficient-input error. -/
inductive Err where
  | unrecognizedNetworkCommand : Bytes → Err
  | oversizedVectorAllocation : Nat → Nat → Err
  | parseFailed : String → Err
  | checksumMismatch : Err
  | truncated : Err
  deriving DecidableEq, Repr

deriving instance DecidableEq for Except

/-- Read exactly `n` bytes from the front of the stream, or fail with the
short-read error (a Rust `io::Read` of a fixed-size buffer). -/
def readN (n : Nat) (d : Bytes) : Except Err (Bytes × Bytes) :=
  if n ≤ d.length then .ok (d.take n, d.drop n) else .error .truncated

/-- Little-endian byte encoding of `v` in `w` bytes (truncating to `w` bytes,
as the corresponding Rust integer casts do). -/
def leBytes : Nat → Nat → Bytes
  | 0, _ => []
  | w + 1, v => v % 256 :: leBytes w (v / 256)

/-- Little-endian value of a byte list. -/
def leVal : Bytes → Nat
  | [] => 0
  | b :: t => b + 256 * leVal t

/-- Modelled from the spec: `MAX_PAYLOAD_SIZE`, the fixed resource-exhaustion
bound (imported by the code as `MAX_VEC_SIZE` from the consensus-encoding
module, which is not under `src/`).  The spec fixes only its order of
magnitude ("tens of megabytes"); the value here is 32 MiB. -/
def MAX_PAYLOAD_SIZE : Nat := 33554432

/-- Modelled from the spec: the external double-hash primitive whose first
four bytes form the checksum of the checksum frame (`sha256d` in the real
library, not under `src/`).  Only determinism and a width of at least four
bytes matter to this layer, so a simple accumulator digest stands in. -/
def doubleHash (body : Bytes) : Bytes :=
  leBytes 4 (body.foldl (fun a b => (a * 131 + b + 7) % 4294967296) 17)

/-- Modelled from the spec: the variable-width integer count primitive
(`VarInt` of the consensus-encoding module, not under `src/`; Bitcoin
CompactSize layout), encode direction. -/
def varIntEnc (n : Nat) : Bytes :=
  if n < 253 then [n]
  else if n < 65536 then 253 :: leBytes 2 n
  else if n < 4294967296 then 254 :: leBytes 4 n
  else 255 :: leBytes 8 n

/-- Modelled from the spec: the variable-width integer count primitive,
decode direction. -/
def varIntDec (d : Bytes) : Except Err (Nat × Bytes) :=
  match d with
  | [] => .error .truncated
  | b :: rest =>
    if b = 253 then do
      let (x, rest) ← readN 2 rest
      .ok (leVal x, rest)
    else if b = 254 then do
      let (x, rest) ← readN 4 rest
      .ok (leVal x, rest)
    else if b = 255 then do
      let (x, rest) ← readN 8 rest
      .ok (leVal x, rest)
    else .ok (b, rest)

/-- Character values of a string literal (all command tokens are ASCII, so
these coincide with the token's bytes). -/
def str2bytes (s : String) : List Nat := s.data.map Char.toNat

/-- A command string, modelled as the list of its character values (the Rust
`CommandString` wraps a `Cow` string). -/
abbrev CommandString := List Nat

/-- `CommandString::consensus_encode`: if the string is longer than 12 bytes,
fail with `UnrecognizedNetworkCommand` carrying the string (the failure the
spec names `CommandTooLong`); otherwise write the string's bytes into a
zero-initialized 12-byte buffer, left-aligned, and emit that buffer. -/
def CommandString.consensus_encode (s : CommandString) : Except Err Bytes :=
  if s.length > 12 then .error (.unrecognizedNetworkCommand s)
  else .ok (s ++ List.replicate (12 - s.length) 0)

/-- `CommandString::consensus_decode`: read a 12-byte array, keep each byte
that is strictly positive as a character (in order), and drop every zero
byte. -/
def CommandString.consensus_decode (d : Bytes) : Except Err (CommandString × Bytes) := do
  let (rawbytes, d) ← readN 12 d
  .ok (rawbytes.filter (fun u => 0 < u), d)

/-- Modelled from the spec: little-endian integer decode (the `u64` decodable
primitive, defined outside `src/`). -/
def u64Dec (d : Bytes) : Except Err (Nat × Bytes) := do
  let (x, d) ← readN 8 d
  .ok (leVal x, d)

/-- Modelled from the spec: the externally-defined structured payload types
(version info, address records, inventory items, block and transaction bodies,
compact-filter records, reject reasons) are opaque values with an
encode/decode capability satisfying the prefix round-trip contract.  Each is
modelled as its content bytes under a length-prefixed layout — which is also
exactly the wire layout of the `Vec<u8>` payloads (`alert`, the bloom-filter
bit field). -/
def extPayloadEnc (p : Bytes) : Bytes := varIntEnc p.length ++ p

/-- Modelled from the spec: decode direction of the opaque external payload
model (and of `Vec<u8>`). -/
def extPayloadDec (d : Bytes) : Except Err (Bytes × Bytes) := do
  let (n, d) ← varIntDec d
  readN n d

/-- Modelled from the spec: a block header is an externally-defined opaque
value; its wire encoding is a fixed 80 bytes. -/
abbrev BlockHeader := { l : Bytes // l.length = 80 }

/-- Modelled from the spec: block header encode (its 80 wire bytes). -/
def blockHeaderEnc (h : BlockHeader) : Bytes := h.val

/-- Modelled from the spec: block header decode (consume 80 bytes). -/
def blockHeaderDec (d : Bytes) : Except Err (BlockHeader × Bytes) :=
  if h : 80 ≤ d.length then
    .ok (⟨d.take 80, by simp [List.length_take]; omega⟩, d.drop 80)
  else .error .truncated

/-- Modelled from the spec: `mem::size_of::<BlockHeader>()`, the in-memory
size of one block header used by the pre-allocation bound (80 bytes: two
32-byte hashes and four 4-byte integers). -/
def SIZE_OF_BLOCK_HEADER : Nat := 80

/-- The machine-word overflow bound: `usize` is modelled as 64 bits, so
`checked_mul` returns `None` exactly when the product reaches `2^64`. -/
def USIZE_BOUND : Nat := 18446744073709551616

/-- Modelled from the spec: the `CheckedData` checksum frame (defined outside
`src/`), encode direction — the body length as a 4-byte little-endian
integer, the first 4 bytes of the double-hash of the body, then the body. -/
def CheckedData.consensus_encode (body : Bytes) : Bytes :=
  leBytes 4 body.length ++ (doubleHash body).take 4 ++ body

/-- Modelled from the spec: the `CheckedData` checksum frame, decode
direction — read the declared length, reject it against `MAX_PAYLOAD_SIZE`
before reading the body, read the 4-byte checksum and the body, and verify
the recomputed digest. -/
def CheckedData.consensus_decode (d : Bytes) : Except Err (Bytes × Bytes) := do
  let (lenB, d) ← readN 4 d
  let len := leVal lenB
  if len > MAX_PAYLOAD_SIZE then
    .error (.oversizedVectorAllocation len MAX_PAYLOAD_SIZE)
  else do
    let (checksum, d) ← readN 4 d
    let (body, d) ← readN len d
    if (doubleHash body).take 4 = checksum then .ok (body, d)
    else .error .checksumMismatch

/-- The `filterload` payload defined in `src/network/message_bloom_filter.rs`:
a bit-field (`Vec<u8>`), two `u32` parameters and a flag byte. -/
structure FilterLoadMessage where
  filter : Bytes
  n_hash_functions : Nat
  n_tweak : Nat
  n_flags : Bool
  deriving DecidableEq, Repr

/-- `impl_consensus_encoding!(FilterLoadMessage, filter, n_hash_functions,
n_tweak, n_flags)`: the fields are encoded in declaration order. -/
def FilterLoadMessage.consensus_encode (m : FilterLoadMessage) : Bytes :=
  extPayloadEnc m.filter ++ leBytes 4 m.n_hash_functions ++ leBytes 4 m.n_tweak ++
    [if m.n_flags then 1 else 0]

/-- Decode direction of the `FilterLoadMessage` field-wise codec. -/
def FilterLoadMessage.consensus_decode (d : Bytes) :
    Except Err (FilterLoadMessage × Bytes) := do
  let (filter, d) ← extPayloadDec d
  let (nh, d) ← readN 4 d
  let (nt, d) ← readN 4 d
  let (fl, d) ← readN 1 d
  .ok ({ filter := filter, n_hash_functions := leVal nh, n_tweak := leVal nt,
         n_flags := leVal fl != 0 }, d)

/-- The payload union `NetworkMessage` of `src/network/message.rs`: 25
variants.  Externally-typed payload contents appear through the opaque
payload model (`Bytes`), `Headers` carries a list of block headers, `Ping`
and `Pong` carry a `u64`, and `FilterLoad` carries the structure from
`src/network/message_bloom_filter.rs`. -/
inductive NetworkMessage where
  | Version : Bytes → NetworkMessage
  | Verack : NetworkMessage
  | Addr : Bytes → NetworkMessage
  | Inv : Bytes → NetworkMessage
  | GetData : Bytes → NetworkMessage
  | NotFound : Bytes → NetworkMessage
  | GetBlocks : Bytes → NetworkMessage
  | GetHeaders : Bytes → NetworkMessage
  | MemPool : NetworkMessage
  | Tx : Bytes → NetworkMessage
  | Block : Bytes → NetworkMessage
  | Headers : List BlockHeader → NetworkMessage
  | SendHeaders : NetworkMessage
  | GetAddr : NetworkMessage
  | Ping : Nat → NetworkMessage
  | Pong : Nat → NetworkMessage
  | GetCFilters : Bytes → NetworkMessage
  | CFilter : Bytes → NetworkMessage
  | GetCFHeaders : Bytes → NetworkMessage
  | CFHeaders : Bytes → NetworkMessage
  | GetCFCheckpt : Bytes → NetworkMessage
  | CFCheckpt : Bytes → NetworkMessage
  | Alert : Bytes → NetworkMessage
  | Reject : Bytes → NetworkMessage
  | FilterLoad : FilterLoadMessage → NetworkMessage
  deriving DecidableEq, Repr

/-- `NetworkMessage::cmd`: the command token of each payload variant. -/
def NetworkMessage.cmd : NetworkMessage → CommandString
  | .Version _ => str2bytes ("version")
  | .Verack => str2bytes ("verack")
  | .Addr _ => str2bytes ("addr")
  | .Inv _ => str2bytes ("inv")
  | .GetData _ => str2bytes ("getdata")
  | .NotFound _ => str2bytes ("notfound")
  | .GetBlocks _ => str2bytes ("getblocks")
  | .GetHeaders _ => str2bytes ("getheaders")
  | .MemPool => str2bytes ("mempool")
  | .Tx _ => str2bytes ("tx")
  | .Block _ => str2bytes ("block")
  | .Headers _ => str2bytes ("headers")
  | .SendHeaders => str2bytes ("sendheaders")
  | .GetAddr => str2bytes ("getaddr")
  | .Ping _ => str2bytes ("ping")
  | .Pong _ => str2bytes ("pong")
  | .GetCFilters _ => str2bytes ("getcfilters")
  | .CFilter _ => str2bytes ("cfilter")
  | .GetCFHeaders _ => str2bytes ("getcfheaders")
  | .CFHeaders _ => str2bytes ("cfheaders")
  | .GetCFCheckpt _ => str2bytes ("getcfckpt")
  | .CFCheckpt _ => str2bytes ("cfcheckpt")
  | .Alert _ => str2bytes ("alert")
  | .Reject _ => str2bytes ("reject")
  | .FilterLoad _ => str2bytes ("filterload")

/-- Constructor index of a payload variant (which of the 25 variants it is,
ignoring the carried data). -/
def NetworkMessage.tagOf : NetworkMessage → Nat
  | .Version _ => 0
  | .Verack => 1
  | .Addr _ => 2
  | .Inv _ => 3
  | .GetData _ => 4
  | .NotFound _ => 5
  | .GetBlocks _ => 6
  | .GetHeaders _ => 7
  | .MemPool => 8
  | .Tx _ => 9
  | .Block _ => 10
  | .Headers _ => 11
  | .SendHeaders => 12
  | .GetAddr => 13
  | .Ping _ => 14
  | .Pong _ => 15
  | .GetCFilters _ => 16
  | .CFilter _ => 17
  | .GetCFHeaders _ => 18
  | .CFHeaders _ => 19
  | .GetCFCheckpt _ => 20
  | .CFCheckpt _ => 21
  | .Alert _ => 22
  | .Reject _ => 23
  | .FilterLoad _ => 24

/-- One representative of each of the 25 payload variants. -/
def allVariants : List NetworkMessage :=
  [.Version [], .Verack, .Addr [], .Inv [], .GetData [], .NotFound [],
   .GetBlocks [], .GetHeaders [], .MemPool, .Tx [], .Block [], .Headers [],
   .SendHeaders, .GetAddr, .Ping 0, .Pong 0, .GetCFilters [], .CFilter [],
   .GetCFHeaders [], .CFHeaders [], .GetCFCheckpt [], .CFCheckpt [],
   .Alert [], .Reject [],
   .FilterLoad { filter := [], n_hash_functions := 0, n_tweak := 0, n_flags := false }]

/-- The known command tokens, in the decoder's dispatch set. -/
def knownTokens : List CommandString :=
  [str2bytes ("version"), str2bytes ("verack"), str2bytes ("addr"),
   str2bytes ("inv"), str2bytes ("getdata"), str2bytes ("notfound"),
   str2bytes ("getblocks"), str2bytes ("getheaders"), str2bytes ("mempool"),
   str2bytes ("tx"), str2bytes ("block"), str2bytes ("headers"),
   str2bytes ("sendheaders"), str2bytes ("getaddr"), str2bytes ("ping"),
   str2bytes ("pong"), str2bytes ("getcfilters"), str2bytes ("cfilter"),
   str2bytes ("getcfheaders"), str2bytes ("cfheaders"),
   str2bytes ("getcfckpt"), str2bytes ("cfcheckpt"), str2bytes ("alert"),
   str2bytes ("reject"), str2bytes ("filterload")]

/-- Body of `HeaderSerializationWrapper::consensus_encode`'s loop: each
header's encoding followed by a single zero marker byte. -/
def encodeHeadersBody : List BlockHeader → Bytes
  | [] => []
  | h :: t => blockHeaderEnc h ++ [0] ++ encodeHeadersBody t

/-- `HeaderSerializationWrapper::consensus_encode`: the list length as a
count, then each header followed by a zero marker byte. -/
def HeaderSerializationWrapper.consensus_encode (hs : List BlockHeader) : Bytes :=
  varIntEnc hs.length ++ encodeHeadersBody hs

/-- The element loop of `HeaderDeserializationWrapper::consensus_decode`: for
each of the declared count of elements, decode one header, then read one byte
and reject the message if that marker byte is nonzero. -/
def decodeHeadersLoop : Nat → Bytes → Except Err (List BlockHeader × Bytes)
  | 0, d => .ok ([], d)
  | n + 1, d => do
    let (h, d) ← blockHeaderDec d
    let (b, d) ← readN 1 d
    if leVal b ≠ 0 then
      .error (.parseFailed ("Headers message should not contain transactions"))
    else do
      let (t, d) ← decodeHeadersLoop n d
      .ok (h :: t, d)

/-- `HeaderDeserializationWrapper::consensus_decode`: read the declared
count, fail on machine-word overflow of `count × sizeof(header)`
(`checked_mul`), fail before decoding any element if that byte size exceeds
the resource bound, then run the element loop. -/
def HeaderDeserializationWrapper.consensus_decode (d : Bytes) :
    Except Err (List BlockHeader × Bytes) := do
  let (len, d) ← varIntDec d
  if len * SIZE_OF_BLOCK_HEADER ≥ USIZE_BOUND then
    .error (.parseFailed ("Invalid length"))
  else if len * SIZE_OF_BLOCK_HEADER > MAX_PAYLOAD_SIZE then
    .error (.oversizedVectorAllocation (len * SIZE_OF_BLOCK_HEADER) MAX_PAYLOAD_SIZE)
  else decodeHeadersLoop len d

/-- The payload-serialization match of `RawNetworkMessage::consensus_encode`:
empty variants produce an empty body, `Headers` goes through the
serialization wrapper, `Ping`/`Pong` are 8-byte little-endian scalars, and
every other variant delegates to its payload's encoder. -/
def serializePayload : NetworkMessage → Bytes
  | .Version dat => extPayloadEnc dat
  | .Addr dat => extPayloadEnc dat
  | .Inv dat => extPayloadEnc dat
  | .GetData dat => extPayloadEnc dat
  | .NotFound dat => extPayloadEnc dat
  | .GetBlocks dat => extPayloadEnc dat
  | .GetHeaders dat => extPayloadEnc dat
  | .Tx dat => extPayloadEnc dat
  | .Block dat => extPayloadEnc dat
  | .Headers dat => HeaderSerializationWrapper.consensus_encode dat
  | .Ping dat => leBytes 8 dat
  | .Pong dat => leBytes 8 dat
  | .GetCFilters dat => extPayloadEnc dat
  | .CFilter dat => extPayloadEnc dat
  | .GetCFHeaders dat => extPayloadEnc dat
  | .CFHeaders dat => extPayloadEnc dat
  | .GetCFCheckpt dat => extPayloadEnc dat
  | .CFCheckpt dat => extPayloadEnc dat
  | .Alert dat => extPayloadEnc dat
  | .Reject dat => extPayloadEnc dat
  | .Verack => []
  | .SendHeaders => []
  | .MemPool => []
  | .GetAddr => []
  | .FilterLoad dat => FilterLoadMessage.consensus_encode dat

/-- The message envelope `RawNetworkMessage`: network magic plus payload. -/
structure RawNetworkMessage where
  magic : Nat
  payload : NetworkMessage
  deriving DecidableEq, Repr

/-- `RawNetworkMessage::consensus_encode`: the magic as a 4-byte
little-endian integer, the command string derived from the payload variant,
then the serialized payload wrapped in the checksum frame. -/
def RawNetworkMessage.consensus_encode (m : RawNetworkMessage) : Except Err Bytes := do
  let commandBytes ← CommandString.consensus_encode m.payload.cmd
  .ok (leBytes 4 m.magic ++ commandBytes ++
    CheckedData.consensus_encode (serializePayload m.payload))

/-- The dispatch match of `RawNetworkMessage::consensus_decode`: select the
variant-specific decode routine by the decoded command token, in the source's
arm order; an unknown token fails with `UnrecognizedNetworkCommand` carrying
the token (the spec's `UnrecognizedCommand`).  Leftover payload bytes after
the routine are ignored, and any error of the routine is returned as is. -/
def decodePayload (cmd : CommandString) (raw : Bytes) : Except Err NetworkMessage :=
  if cmd = str2bytes ("version") then do
    let (dat, _) ← extPayloadDec raw
    .ok (.Version dat)
  else if cmd = str2bytes ("verack") then .ok .Verack
  else if cmd = str2bytes ("addr") then do
    let (dat, _) ← extPayloadDec raw
    .ok (.Addr dat)
  else if cmd = str2bytes ("inv") then do
    let (dat, _) ← extPayloadDec raw
    .ok (.Inv dat)
  else if cmd = str2bytes ("getdata") then do
    let (dat, _) ← extPayloadDec raw
    .ok (.GetData dat)
  else if cmd = str2bytes ("notfound") then do
    let (dat, _) ← extPayloadDec raw
    .ok (.NotFound dat)
  else if cmd = str2bytes ("getblocks") then do
    let (dat, _) ← extPayloadDec raw
    .ok (.GetBlocks dat)
  else if cmd = str2bytes ("getheaders") then do
    let (dat, _) ← extPayloadDec raw
    .ok (.GetHeaders dat)
  else if cmd = str2bytes ("mempool") then .ok .MemPool
  else if cmd = str2bytes ("block") then do
    let (dat, _) ← extPayloadDec raw
    .ok (.Block dat)
  else if cmd = str2bytes ("headers") then do
    let (dat, _) ← HeaderDeserializationWrapper.consensus_decode raw
    .ok (.Headers dat)
  else if cmd = str2bytes ("sendheaders") then .ok .SendHeaders
  else if cmd = str2bytes ("getaddr") then .ok .GetAddr
  else if cmd = str2bytes ("ping") then do
    let (dat, _) ← u64Dec raw
    .ok (.Ping dat)
  else if cmd = str2bytes ("pong") then do
    let (dat, _) ← u64Dec raw
    .ok (.Pong dat)
  else if cmd = str2bytes ("tx") then do
    let (dat, _) ← extPayloadDec raw
    .ok (.Tx dat)
  else if cmd = str2bytes ("getcfilters") then do
    let (dat, _) ← extPayloadDec raw
    .ok (.GetCFilters dat)
  else if cmd = str2bytes ("cfilter") then do
    let (dat, _) ← extPayloadDec raw
    .ok (.CFilter dat)
  else if cmd = str2bytes ("getcfheaders") then do
    let (dat, _) ← extPayloadDec raw
    .ok (.GetCFHeaders dat)
  else if cmd = str2bytes ("cfheaders") then do
    let (dat, _) ← extPayloadDec raw
    .ok (.CFHeaders dat)
  else if cmd = str2bytes ("getcfckpt") then do
    let (dat, _) ← extPayloadDec raw
    .ok (.GetCFCheckpt dat)
  else if cmd = str2bytes ("cfcheckpt") then do
    let (dat, _) ← extPayloadDec raw
    .ok (.CFCheckpt dat)
  else if cmd = str2bytes ("reject") then do
    let (dat, _) ← extPayloadDec raw
    .ok (.Reject dat)
  else if cmd = str2bytes ("alert") then do
    let (dat, _) ← extPayloadDec raw
    .ok (.Alert dat)
  else if cmd = str2bytes ("filterload") then do
    let (dat, _) ← FilterLoadMessage.consensus_decode raw
    .ok (.FilterLoad dat)
  else .error (.unrecognizedNetworkCommand cmd)

/-- `RawNetworkMessage::consensus_decode`: read the magic, the command
string and the checksum frame, then dispatch on the command token over the
frame's body. -/
def RawNetworkMessage.consensus_decode (d : Bytes) :
    Except Err (RawNetworkMessage × Bytes) := do
  let (magicB, d) ← readN 4 d
  let (cmd, d) ← CommandString.consensus_decode d
  let (raw_payload, d) ← CheckedData.consensus_decode d
  let payload ← decodePayload cmd raw_payload
  .ok ({ magic := leVal magicB, payload := payload }, d)

/-- Scalar well-formedness of a payload: the variant is constructible in the
source's types (`u64` scalars for `ping`/`pong`, `u32` fields in
`filterload`). -/
def payloadWF : NetworkMessage → Prop
  | .Ping v => v < 18446744073709551616
  | .Pong v => v < 18446744073709551616
  | .FilterLoad f => f.n_hash_functions < 4294967296 ∧ f.n_tweak < 4294967296
  | _ => True

/-- A concrete block header (80 zero bytes) used by concrete instances. -/
def hdr0 : BlockHeader := ⟨List.replicate 80 0, by simp⟩

/-- A concrete `headers` envelope with 500000 headers: its serialized body is
40500005 bytes, which exceeds `MAX_PAYLOAD_SIZE`, so the decoder rejects what
the encoder produced. -/
def envHeadersBig : RawNetworkMessage :=
  { magic := 3652501241, payload := .Headers (List.replicate 500000 hdr0) }

theorem readN_exact (xs ys : Bytes) : readN xs.length (xs ++ ys) = .ok (xs, ys) := by
  simp [readN, List.take_append, List.drop_append]

theorem readN_of_length_eq {n : Nat} {xs : Bytes} (ys : Bytes) (h : xs.length = n) :
    readN n (xs ++ ys) = .ok (xs, ys) := by
  subst h; exact readN_exact xs ys

theorem leBytes_length (w v : Nat) : (leBytes w v).length = w := by
  induction w generalizing v with
  | zero => rfl
  | succ k ih => simp [leBytes, ih]

theorem leVal_leBytes {w v : Nat} (h : v < 256 ^ w) : leVal (leBytes w v) = v := by
  induction w generalizing v with
  | zero => simp [leBytes, leVal]; omega
  | succ k ih =>
    have hdiv : v / 256 < 256 ^ k := by
      rw [Nat.div_lt_iff_lt_mul (by omega)]
      calc v < 256 ^ (k + 1) := h
        _ = 256 ^ k * 256 := by ring
    simp only [leBytes, leVal, ih hdiv]
    omega

theorem varIntEnc_dec {n : Nat} (h : n < 18446744073709551616) (rest : Bytes) :
    varIntDec (varIntEnc n ++ rest) = .ok (n, rest) := by
  by_cases h1 : n < 253
  · have e1 : ¬ (n = 253) := by omega
    have e2 : ¬ (n = 254) := by omega
    have e3 : ¬ (n = 255) := by omega
    simp [varIntEnc, varIntDec, h1, e1, e2, e3]
  · by_cases h2 : n < 65536
    · have hv : leVal (leBytes 2 n) = n := leVal_leBytes (by omega)
      simp [varIntEnc, varIntDec, h1, h2,
        readN_of_length_eq rest (leBytes_length 2 n), bind, Except.bind, hv]
    · by_cases h3 : n < 4294967296
      · have hv : leVal (leBytes 4 n) = n := leVal_leBytes (by omega)
        simp [varIntEnc, varIntDec, h1, h2, h3,
          readN_of_length_eq rest (leBytes_length 4 n), bind, Except.bind, hv]
      · have hv : leVal (leBytes 8 n) = n := leVal_leBytes (by
          have : (256 : Nat) ^ 8 = 18446744073709551616 := by norm_num
          omega)
        simp [varIntEnc, varIntDec, h1, h2, h3,
          readN_of_length_eq rest (leBytes_length 8 n), bind, Except.bind, hv]

theorem extPayloadEnc_dec {p : Bytes} (h : p.length < 18446744073709551616)
    (rest : Bytes) : extPayloadDec (extPayloadEnc p ++ rest) = .ok (p, rest) := by
  simp [extPayloadEnc, extPayloadDec, List.append_assoc, varIntEnc_dec h,
    bind, Except.bind, readN_exact]

theorem extPayloadEnc_dec_nil {p : Bytes} (h : p.length < 18446744073709551616) :
    extPayloadDec (extPayloadEnc p) = .ok (p, []) := by
  simpa using extPayloadEnc_dec h []

theorem u64Dec_enc {v : Nat} (h : v < 18446744073709551616) (rest : Bytes) :
    u64Dec (leBytes 8 v ++ rest) = .ok (v, rest) := by
  have hv : leVal (leBytes 8 v) = v := leVal_leBytes (by
    have : (256 : Nat) ^ 8 = 18446744073709551616 := by norm_num
    omega)
  simp [u64Dec, readN_of_length_eq rest (leBytes_length 8 v), bind, Except.bind, hv]

theorem blockHeaderEnc_dec (h : BlockHeader) (rest : Bytes) :
    blockHeaderDec (blockHeaderEnc h ++ rest) = .ok (h, rest) := by
  have hl : 80 ≤ (blockHeaderEnc h ++ rest).length := by
    simp [blockHeaderEnc, h.2]
  simp only [blockHeaderDec, blockHeaderEnc, dif_pos hl]
  have ht : (h.val ++ rest).take 80 = h.val := List.take_left' h.2
  have hd : (h.val ++ rest).drop 80 = rest := List.drop_left' h.2
  simp [blockHeaderEnc] at ht hd
  simp [ht, hd]

theorem decodeHeadersLoop_enc (hs : List BlockHeader) (rest : Bytes) :
    decodeHeadersLoop hs.length (encodeHeadersBody hs ++ rest) = .ok (hs, rest) := by
  induction hs generalizing rest with
  | nil => simp [encodeHeadersBody, decodeHeadersLoop]
  | cons h t ih =>
    have : encodeHeadersBody (h :: t) ++ rest =
        blockHeaderEnc h ++ ([0] ++ (encodeHeadersBody t ++ rest)) := by
      simp [encodeHeadersBody]
    simp only [List.length_cons, decodeHeadersLoop, this,
      blockHeaderEnc_dec h ([0] ++ (encodeHeadersBody t ++ rest)), bind, Except.bind]
    have h1 : readN 1 ([0] ++ (encodeHeadersBody t ++ rest)) =
        .ok ([0], encodeHeadersBody t ++ rest) := readN_of_length_eq _ (by rfl)
    rw [List.singleton_append] at h1
    simp [h1, leVal, ih rest]

theorem encodeHeadersBody_length (hs : List BlockHeader) :
    (encodeHeadersBody hs).length = 81 * hs.length := by
  induction hs with
  | nil => simp [encodeHeadersBody]
  | cons h t ih => simp [encodeHeadersBody, blockHeaderEnc, ih, h.2]; ring

theorem headersWrapper_roundtrip {hs : List BlockHeader}
    (hb : hs.length * SIZE_OF_BLOCK_HEADER ≤ MAX_PAYLOAD_SIZE) (rest : Bytes) :
    HeaderDeserializationWrapper.consensus_decode
      (HeaderSerializationWrapper.consensus_encode hs ++ rest) = .ok (hs, rest) := by
  have hlen : hs.length < 18446744073709551616 := by
    unfold SIZE_OF_BLOCK_HEADER MAX_PAYLOAD_SIZE at hb
    omega
  have hno : ¬ (hs.length * SIZE_OF_BLOCK_HEADER ≥ USIZE_BOUND) := by
    unfold SIZE_OF_BLOCK_HEADER MAX_PAYLOAD_SIZE at hb
    unfold SIZE_OF_BLOCK_HEADER USIZE_BOUND
    omega
  have hns : ¬ (hs.length * SIZE_OF_BLOCK_HEADER > MAX_PAYLOAD_SIZE) := by omega
  simp [HeaderDeserializationWrapper.consensus_decode,
    HeaderSerializationWrapper.consensus_encode, List.append_assoc,
    varIntEnc_dec hlen, bind, Except.bind, hno, hns, decodeHeadersLoop_enc]

theorem doubleHash_length (b : Bytes) : (doubleHash b).length = 4 := by
  simp [doubleHash, leBytes_length]

theorem doubleHash_take (b : Bytes) : (doubleHash b).take 4 = doubleHash b :=
  List.take_of_length_le (by simp [doubleHash_length])

theorem checkedData_roundtrip {body : Bytes} (h : body.length ≤ MAX_PAYLOAD_SIZE)
    (rest : Bytes) :
    CheckedData.consensus_decode (CheckedData.consensus_encode body ++ rest) =
      .ok (body, rest) := by
  have hlen : leVal (leBytes 4 body.length) = body.length := leVal_leBytes (by
    unfold MAX_PAYLOAD_SIZE at h
    have : (256 : Nat) ^ 4 = 4294967296 := by norm_num
    omega)
  have hno : ¬ (body.length > MAX_PAYLOAD_SIZE) := by omega
  simp only [CheckedData.consensus_encode, CheckedData.consensus_decode,
    List.append_assoc, doubleHash_take]
  simp [readN_of_length_eq _ (leBytes_length 4 body.length), bind, Except.bind,
    hlen, hno, readN_of_length_eq _ (doubleHash_length body), readN_exact,
    doubleHash_take]

theorem cmd_length_le (m : NetworkMessage) : m.cmd.length ≤ 12 := by
  cases m <;> simp only [NetworkMessage.cmd] <;> decide

theorem cmd_filter_pos (m : NetworkMessage) :
    m.cmd.filter (fun u => 0 < u) = m.cmd := by
  cases m <;> simp only [NetworkMessage.cmd] <;> decide

theorem filter_pos_replicate_zero (k : Nat) :
    (List.replicate k 0).filter (fun u => 0 < u) = ([] : Bytes) := by
  induction k with
  | zero => rfl
  | succ n ih => simp [List.replicate, ih]

theorem commandString_decode_padded {s : CommandString} (hlen : s.length ≤ 12)
    (hpos : s.filter (fun u => 0 < u) = s) (rest : Bytes) :
    CommandString.consensus_decode ((s ++ List.replicate (12 - s.length) 0) ++ rest) =
      .ok (s, rest) := by
  have h12 : (s ++ List.replicate (12 - s.length) 0).length = 12 := by
    simp; omega
  simp only [CommandString.consensus_decode, readN_of_length_eq rest h12,
    bind, Except.bind]
  simp [List.filter_append, hpos, filter_pos_replicate_zero]

theorem filterLoad_roundtrip {f : FilterLoadMessage}
    (hf : f.filter.length < 18446744073709551616)
    (hh : f.n_hash_functions < 4294967296) (ht : f.n_tweak < 4294967296) :
    FilterLoadMessage.consensus_decode (FilterLoadMessage.consensus_encode f) =
      .ok (f, []) := by
  have hvh : leVal (leBytes 4 f.n_hash_functions) = f.n_hash_functions :=
    leVal_leBytes (by norm_num; omega)
  have hvt : leVal (leBytes 4 f.n_tweak) = f.n_tweak := leVal_leBytes (by norm_num; omega)
  have hrest : readN 1 ([if f.n_flags then 1 else 0] : Bytes) =
      .ok ([if f.n_flags then 1 else 0], []) := by
    simpa using @readN_of_length_eq 1 [if f.n_flags then 1 else 0] [] (by simp)
  simp only [FilterLoadMessage.consensus_encode, FilterLoadMessage.consensus_decode,
    List.append_assoc, extPayloadEnc_dec hf, bind, Except.bind,
    readN_of_length_eq _ (leBytes_length 4 f.n_hash_functions),
    readN_of_length_eq _ (leBytes_length 4 f.n_tweak), hrest, hvh, hvt]
  cases hfl : f.n_flags <;> simp [leVal, hfl] <;> rw [← hfl]

theorem extPayloadEnc_length (p : Bytes) : p.length ≤ (extPayloadEnc p).length := by
  simp [extPayloadEnc]

/-- Dispatch correctness: for every payload variant, the decode routine the
dispatch table selects for its command token recovers the payload from its
own serialization. -/
theorem decodePayload_serialize (m : NetworkMessage) (hwf : payloadWF m)
    (hsz : (serializePayload m).length ≤ MAX_PAYLOAD_SIZE) :
    decodePayload m.cmd (serializePayload m) = .ok m := by
  unfold MAX_PAYLOAD_SIZE at hsz
  cases m with
  | Verack => simp [NetworkMessage.cmd, decodePayload, str2bytes]
  | MemPool => simp [NetworkMessage.cmd, decodePayload, str2bytes]
  | SendHeaders => simp [NetworkMessage.cmd, decodePayload, str2bytes]
  | GetAddr => simp [NetworkMessage.cmd, decodePayload, str2bytes]
  | Version p =>
    have hp : p.length < 18446744073709551616 := by
      have h1 := extPayloadEnc_length p
      simp only [serializePayload] at hsz
      omega
    simp [NetworkMessage.cmd, serializePayload, decodePayload, str2bytes,
      extPayloadEnc_dec_nil hp, bind, Except.bind]
  | Addr p =>
    have hp : p.length < 18446744073709551616 := by
      have h1 := extPayloadEnc_length p
      simp only [serializePayload] at hsz
      omega
    simp [NetworkMessage.cmd, serializePayload, decodePayload, str2bytes,
      extPayloadEnc_dec_nil hp, bind, Except.bind]
  | Inv p =>
    have hp : p.length < 18446744073709551616 := by
      have h1 := extPayloadEnc_length p
      simp only [serializePayload] at hsz
      omega
    simp [NetworkMessage.cmd, serializePayload, decodePayload, str2bytes,
      extPayloadEnc_dec_nil hp, bind, Except.bind]
  | GetData p =>
    have hp : p.length < 18446744073709551616 := by
      have h1 := extPayloadEnc_length p
      simp only [serializePayload] at hsz
      omega
    simp [NetworkMessage.cmd, serializePayload, decodePayload, str2bytes,
      extPayloadEnc_dec_nil hp, bind, Except.bind]
  | NotFound p =>
    have hp : p.length < 18446744073709551616 := by
      have h1 := extPayloadEnc_length p
      simp only [serializePayload] at hsz
      omega
    simp [NetworkMessage.cmd, serializePayload, decodePayload, str2bytes,
      extPayloadEnc_dec_nil hp, bind, Except.bind]
  | GetBlocks p =>
    have hp : p.length < 18446744073709551616 := by
      have h1 := extPayloadEnc_length p
      simp only [serializePayload] at hsz
      omega
    simp [NetworkMessage.cmd, serializePayload, decodePayload, str2bytes,
      extPayloadEnc_dec_nil hp, bind, Except.bind]
  | GetHeaders p =>
    have hp : p.length < 18446744073709551616 := by
      have h1 := extPayloadEnc_length p
      simp only [serializePayload] at hsz
      omega
    simp [NetworkMessage.cmd, serializePayload, decodePayload, str2bytes,
      extPayloadEnc_dec_nil hp, bind, Except.bind]
  | Tx p =>
    have hp : p.length < 18446744073709551616 := by
      have h1 := extPayloadEnc_length p
      simp only [serializePayload] at hsz
      omega
    simp [NetworkMessage.cmd, serializePayload, decodePayload, str2bytes,
      extPayloadEnc_dec_nil hp, bind, Except.bind]
  | Block p =>
    have hp : p.length < 18446744073709551616 := by
      have h1 := extPayloadEnc_length p
      simp only [serializePayload] at hsz
      omega
    simp [NetworkMessage.cmd, serializePayload, decodePayload, str2bytes,
      extPayloadEnc_dec_nil hp, bind, Except.bind]
  | Headers hs =>
    have hb : hs.length * SIZE_OF_BLOCK_HEADER ≤ MAX_PAYLOAD_SIZE := by
      simp only [serializePayload, HeaderSerializationWrapper.consensus_encode,
        List.length_append, encodeHeadersBody_length] at hsz
      unfold SIZE_OF_BLOCK_HEADER MAX_PAYLOAD_SIZE
      omega
    have hdec := headersWrapper_roundtrip hb []
    rw [List.append_nil] at hdec
    simp [NetworkMessage.cmd, serializePayload, decodePayload, str2bytes,
      hdec, bind, Except.bind]
  | Ping v =>
    have hv : v < 18446744073709551616 := hwf
    have hdec := u64Dec_enc hv []
    rw [List.append_nil] at hdec
    simp [NetworkMessage.cmd, serializePayload, decodePayload, str2bytes,
      hdec, bind, Except.bind]
  | Pong v =>
    have hv : v < 18446744073709551616 := hwf
    have hdec := u64Dec_enc hv []
    rw [List.append_nil] at hdec
    simp [NetworkMessage.cmd, serializePayload, decodePayload, str2bytes,
      hdec, bind, Except.bind]
  | GetCFilters p =>
    have hp : p.length < 18446744073709551616 := by
      have h1 := extPayloadEnc_length p
      simp only [serializePayload] at hsz
      omega
    simp [NetworkMessage.cmd, serializePayload, decodePayload, str2bytes,
      extPayloadEnc_dec_nil hp, bind, Except.bind]
  | CFilter p =>
    have hp : p.length < 18446744073709551616 := by
      have h1 := extPayloadEnc_length p
      simp only [serializePayload] at hsz
      omega
    simp [NetworkMessage.cmd, serializePayload, decodePayload, str2bytes,
      extPayloadEnc_dec_nil hp, bind, Except.bind]
  | GetCFHeaders p =>
    have hp : p.length < 18446744073709551616 := by
      have h1 := extPayloadEnc_length p
      simp only [serializePayload] at hsz
      omega
    simp [NetworkMessage.cmd, serializePayload, decodePayload, str2bytes,
      extPayloadEnc_dec_nil hp, bind, Except.bind]
  | CFHeaders p =>
    have hp : p.length < 18446744073709551616 := by
      have h1 := extPayloadEnc_length p
      simp only [serializePayload] at hsz
      omega
    simp [NetworkMessage.cmd, serializePayload, decodePayload, str2bytes,
      extPayloadEnc_dec_nil hp, bind, Except.bind]
  | GetCFCheckpt p =>
    have hp : p.length < 18446744073709551616 := by
      have h1 := extPayloadEnc_length p
      simp only [serializePayload] at hsz
      omega
    simp [NetworkMessage.cmd, serializePayload, decodePayload, str2bytes,
      extPayloadEnc_dec_nil hp, bind, Except.bind]
  | CFCheckpt p =>
    have hp : p.length < 18446744073709551616 := by
      have h1 := extPayloadEnc_length p
      simp only [serializePayload] at hsz
      omega
    simp [NetworkMessage.cmd, serializePayload, decodePayload, str2bytes,
      extPayloadEnc_dec_nil hp, bind, Except.bind]
  | Alert p =>
    have hp : p.length < 18446744073709551616 := by
      have h1 := extPayloadEnc_length p
      simp only [serializePayload] at hsz
      omega
    simp [NetworkMessage.cmd, serializePayload, decodePayload, str2bytes,
      extPayloadEnc_dec_nil hp, bind, Except.bind]
  | Reject p =>
    have hp : p.length < 18446744073709551616 := by
      have h1 := extPayloadEnc_length p
      simp only [serializePayload] at hsz
      omega
    simp [NetworkMessage.cmd, serializePayload, decodePayload, str2bytes,
      extPayloadEnc_dec_nil hp, bind, Except.bind]
  | FilterLoad f =>
    have hf : f.filter.length < 18446744073709551616 := by
      have h1 := extPayloadEnc_length f.filter
      simp only [serializePayload, FilterLoadMessage.consensus_encode,
        List.length_append] at hsz
      omega
    have hdec := filterLoad_roundtrip hf hwf.1 hwf.2
    simp [NetworkMessage.cmd, serializePayload, decodePayload, str2bytes,
      hdec, bind, Except.bind]

/-- The envelope encoder always succeeds and produces the magic, the padded
command and the checksum frame of the serialized payload, in that order. -/
theorem consensus_encode_eq (m : RawNetworkMessage) :
    RawNetworkMessage.consensus_encode m =
      .ok (leBytes 4 m.magic ++
        (m.payload.cmd ++ List.replicate (12 - m.payload.cmd.length) 0) ++
        CheckedData.consensus_encode (serializePayload m.payload)) := by
  have hcl : ¬ (12 < m.payload.cmd.length) := by
    have := cmd_length_le m.payload
    omega
  simp [RawNetworkMessage.consensus_encode, CommandString.consensus_encode, hcl,
    bind, Except.bind]

/-- Envelope round-trip as one lemma: decoding the encoder's output returns
the original envelope and consumes the whole buffer. -/
theorem consensus_decode_encode (m : RawNetworkMessage)
    (hm : m.magic < 4294967296) (hwf : payloadWF m.payload)
    (hsz : (serializePayload m.payload).length ≤ MAX_PAYLOAD_SIZE) :
    (RawNetworkMessage.consensus_encode m).bind RawNetworkMessage.consensus_decode =
      .ok (m, []) := by
  rw [consensus_encode_eq m]
  have hframe := checkedData_roundtrip hsz []
  rw [List.append_nil] at hframe
  have hcmd := commandString_decode_padded (cmd_length_le m.payload)
    (cmd_filter_pos m.payload)
    (CheckedData.consensus_encode (serializePayload m.payload))
  rw [List.append_assoc] at hcmd
  simp only [Except.bind, RawNetworkMessage.consensus_decode, List.append_assoc,
    readN_of_length_eq _ (leBytes_length 4 m.magic), bind, hcmd, hframe,
    decodePayload_serialize m.payload hwf hsz, leVal_leBytes (by norm_num; omega : m.magic < 256 ^ 4)]

/-- Whatever payload a dispatch branch produces carries the very command
token that selected the branch. -/
theorem decodePayload_cmd_eq (m : NetworkMessage) (raw : Bytes) (q : NetworkMessage)
    (h : decodePayload m.cmd raw = .ok q) : q.cmd = m.cmd := by
  cases m with
  | Verack =>
    simp [NetworkMessage.cmd, decodePayload, str2bytes] at h
    subst h; rfl
  | MemPool =>
    simp [NetworkMessage.cmd, decodePayload, str2bytes] at h
    subst h; rfl
  | SendHeaders =>
    simp [NetworkMessage.cmd, decodePayload, str2bytes] at h
    subst h; rfl
  | GetAddr =>
    simp [NetworkMessage.cmd, decodePayload, str2bytes] at h
    subst h; rfl
  | Version dat =>
    rcases hx : extPayloadDec raw with e | v
    · simp [NetworkMessage.cmd, decodePayload, str2bytes, hx, bind, Except.bind] at h
    · simp [NetworkMessage.cmd, decodePayload, str2bytes, hx, bind, Except.bind] at h
      subst h; rfl
  | Addr dat =>
    rcases hx : extPayloadDec raw with e | v
    · simp [NetworkMessage.cmd, decodePayload, str2bytes, hx, bind, Except.bind] at h
    · simp [NetworkMessage.cmd, decodePayload, str2bytes, hx, bind, Except.bind] at h
      subst h; rfl
  | Inv dat =>
    rcases hx : extPayloadDec raw with e | v
    · simp [NetworkMessage.cmd, decodePayload, str2bytes, hx, bind, Except.bind] at h
    · simp [NetworkMessage.cmd, decodePayload, str2bytes, hx, bind, Except.bind] at h
      subst h; rfl
  | GetData dat =>
    rcases hx : extPayloadDec raw with e | v
    · simp [NetworkMessage.cmd, decodePayload, str2bytes, hx, bind, Except.bind] at h
    · simp [NetworkMessage.cmd, decodePayload, str2bytes, hx, bind, Except.bind] at h
      subst h; rfl
  | NotFound dat =>
    rcases hx : extPayloadDec raw with e | v
    · simp [NetworkMessage.cmd, decodePayload, str2bytes, hx, bind, Except.bind] at h
    · simp [NetworkMessage.cmd, decodePayload, str2bytes, hx, bind, Except.bind] at h
      subst h; rfl
  | GetBlocks dat =>
    rcases hx : extPayloadDec raw with e | v
    · simp [NetworkMessage.cmd, decodePayload, str2bytes, hx, bind, Except.bind] at h
    · simp [NetworkMessage.cmd, decodePayload, str2bytes, hx, bind, Except.bind] at h
      subst h; rfl
  | GetHeaders dat =>
    rcases hx : extPayloadDec raw with e | v
    · simp [NetworkMessage.cmd, decodePayload, str2bytes, hx, bind, Except.bind] at h
    · simp [NetworkMessage.cmd, decodePayload, str2bytes, hx, bind, Except.bind] at h
      subst h; rfl
  | Tx dat =>
    rcases hx : extPayloadDec raw with e | v
    · simp [NetworkMessage.cmd, decodePayload, str2bytes, hx, bind, Except.bind] at h
    · simp [NetworkMessage.cmd, decodePayload, str2bytes, hx, bind, Except.bind] at h
      subst h; rfl
  | Block dat =>
    rcases hx : extPayloadDec raw with e | v
    · simp [NetworkMessage.cmd, decodePayload, str2bytes, hx, bind, Except.bind] at h
    · simp [NetworkMessage.cmd, decodePayload, str2bytes, hx, bind, Except.bind] at h
      subst h; rfl
  | Headers dat =>
    rcases hx : HeaderDeserializationWrapper.consensus_decode raw with e | v
    · simp [NetworkMessage.cmd, decodePayload, str2bytes, hx, bind, Except.bind] at h
    · simp [NetworkMessage.cmd, decodePayload, str2bytes, hx, bind, Except.bind] at h
      subst h; rfl
  | Ping dat =>
    rcases hx : u64Dec raw with e | v
    · simp [NetworkMessage.cmd, decodePayload, str2bytes, hx, bind, Except.bind] at h
    · simp [NetworkMessage.cmd, decodePayload, str2bytes, hx, bind, Except.bind] at h
      subst h; rfl
  | Pong dat =>
    rcases hx : u64Dec raw with e | v
    · simp [NetworkMessage.cmd, decodePayload, str2bytes, hx, bind, Except.bind] at h
    · simp [NetworkMessage.cmd, decodePayload, str2bytes, hx, bind, Except.bind] at h
      subst h; rfl
  | GetCFilters dat =>
    rcases hx : extPayloadDec raw with e | v
    · simp [NetworkMessage.cmd, decodePayload, str2bytes, hx, bind, Except.bind] at h
    · simp [NetworkMessage.cmd, decodePayload, str2bytes, hx, bind, Except.bind] at h
      subst h; rfl
  | CFilter dat =>
    rcases hx : extPayloadDec raw with e | v
    · simp [NetworkMessage.cmd, decodePayload, str2bytes, hx, bind, Except.bind] at h
    · simp [NetworkMessage.cmd, decodePayload, str2bytes, hx, bind, Except.bind] at h
      subst h; rfl
  | GetCFHeaders dat =>
    rcases hx : extPayloadDec raw with e | v
    · simp [NetworkMessage.cmd, decodePayload, str2bytes, hx, bind, Except.bind] at h
    · simp [NetworkMessage.cmd, decodePayload, str2bytes, hx, bind, Except.bind] at h
      subst h; rfl
  | CFHeaders dat =>
    rcases hx : extPayloadDec raw with e | v
    · simp [NetworkMessage.cmd, decodePayload, str2bytes, hx, bind, Except.bind] at h
    · simp [NetworkMessage.cmd, decodePayload, str2bytes, hx, bind, Except.bind] at h
      subst h; rfl
  | GetCFCheckpt dat =>
    rcases hx : extPayloadDec raw with e | v
    · simp [NetworkMessage.cmd, decodePayload, str2bytes, hx, bind, Except.bind] at h
    · simp [NetworkMessage.cmd, decodePayload, str2bytes, hx, bind, Except.bind] at h
      subst h; rfl
  | CFCheckpt dat =>
    rcases hx : extPayloadDec raw with e | v
    · simp [NetworkMessage.cmd, decodePayload, str2bytes, hx, bind, Except.bind] at h
    · simp [NetworkMessage.cmd, decodePayload, str2bytes, hx, bind, Except.bind] at h
      subst h; rfl
  | Alert dat =>
    rcases hx : extPayloadDec raw with e | v
    · simp [NetworkMessage.cmd, decodePayload, str2bytes, hx, bind, Except.bind] at h
    · simp [NetworkMessage.cmd, decodePayload, str2bytes, hx, bind, Except.bind] at h
      subst h; rfl
  | Reject dat =>
    rcases hx : extPayloadDec raw with e | v
    · simp [NetworkMessage.cmd, decodePayload, str2bytes, hx, bind, Except.bind] at h
    · simp [NetworkMessage.cmd, decodePayload, str2bytes, hx, bind, Except.bind] at h
      subst h; rfl
  | FilterLoad dat =>
    rcases hx : FilterLoadMessage.consensus_decode raw with e | v
    · simp [NetworkMessage.cmd, decodePayload, str2bytes, hx, bind, Except.bind] at h
    · simp [NetworkMessage.cmd, decodePayload, str2bytes, hx, bind, Except.bind] at h
      subst h; rfl

/-- The checksum-frame decoder rejects a frame whose declared body length
exceeds `MAX_PAYLOAD_SIZE`, even when that frame was produced by the
encoder. -/
theorem checkedData_decode_oversized {body : Bytes} (h1 : MAX_PAYLOAD_SIZE < body.length)
    (h2 : body.length < 4294967296) (rest : Bytes) :
    CheckedData.consensus_decode (CheckedData.consensus_encode body ++ rest) =
      .error (.oversizedVectorAllocation body.length MAX_PAYLOAD_SIZE) := by
  have hlen : leVal (leBytes 4 body.length) = body.length := leVal_leBytes (by norm_num; omega)
  simp [CheckedData.consensus_encode, CheckedData.consensus_decode, List.append_assoc,
    readN_of_length_eq _ (leBytes_length 4 body.length), bind, Except.bind, hlen, h1]

/-- Length of a `headers` body with `n` copies of the zero header. -/
theorem headersBody_length_n (n : Nat) :
    (serializePayload (.Headers (List.replicate n hdr0))).length =
      (varIntEnc n).length + 81 * n := by
  show (HeaderSerializationWrapper.consensus_encode (List.replicate n hdr0)).length = _
  rw [HeaderSerializationWrapper.consensus_encode, List.length_append,
    encodeHeadersBody_length, List.length_replicate]

/-- The serialized body of the 500000-header payload is 40500005 bytes. -/
theorem envHeadersBig_body_length :
    (serializePayload envHeadersBig.payload).length = 40500005 := by
  have h1 : envHeadersBig.payload = .Headers (List.replicate 500000 hdr0) := rfl
  rw [h1, headersBody_length_n]
  have hv : (varIntEnc 500000).length = 5 := by
    rw [varIntEnc, if_neg (by norm_num), if_neg (by norm_num), if_pos (by norm_num)]
    simp [leBytes_length]
  rw [hv]

/-- When the serialized payload body exceeds `MAX_PAYLOAD_SIZE`, the decoder
rejects the encoder's own output at the checksum frame, before reaching the
payload. -/
theorem consensus_decode_encode_oversized (m : RawNetworkMessage)
    (h1 : MAX_PAYLOAD_SIZE < (serializePayload m.payload).length)
    (h2 : (serializePayload m.payload).length < 4294967296) :
    (RawNetworkMessage.consensus_encode m).bind RawNetworkMessage.consensus_decode =
      .error (.oversizedVectorAllocation (serializePayload m.payload).length
        MAX_PAYLOAD_SIZE) := by
  have hover := checkedData_decode_oversized h1 h2 ([] : Bytes)
  rw [List.append_nil] at hover
  have hcmd := commandString_decode_padded (cmd_length_le m.payload)
    (cmd_filter_pos m.payload)
    (CheckedData.consensus_encode (serializePayload m.payload))
  rw [List.append_assoc] at hcmd
  rw [consensus_encode_eq]
  simp only [Except.bind, bind, RawNetworkMessage.consensus_decode,
    List.append_assoc, readN_of_length_eq _ (leBytes_length 4 m.magic),
    hcmd, hover]

/-- C1 (amended): for every constructible payload variant and every `u32`
magic value, if the serialized payload body is within `MAX_PAYLOAD_SIZE`,
then decoding the bytes produced by encoding the envelope yields an envelope
equal to the original (and consumes the whole buffer).  The size proviso is
forced by the decoder's resource bound, which rejects the encoder's own
output on larger payloads (see the counterexample). -/
theorem raw_network_message_roundtrip (m : RawNetworkMessage)
    (hm : m.magic < 4294967296) (hwf : payloadWF m.payload)
    (hsz : (serializePayload m.payload).length ≤ MAX_PAYLOAD_SIZE) :
    (RawNetworkMessage.consensus_encode m).bind RawNetworkMessage.consensus_decode =
      .ok (m, []) :=
  consensus_decode_encode m hm hwf hsz

/-- Witness for C1: the `ping` envelope with magic `0xd9b4bef9` and nonce 100
round-trips. -/
theorem raw_network_message_roundtrip_witness :
    ((3652501241 : Nat) < 4294967296 ∧ payloadWF (.Ping 100) ∧
      (serializePayload (.Ping 100)).length ≤ MAX_PAYLOAD_SIZE) ∧
    (RawNetworkMessage.consensus_encode
        { magic := 3652501241, payload := .Ping 100 }).bind
      RawNetworkMessage.consensus_decode =
        .ok ({ magic := 3652501241, payload := .Ping 100 }, []) :=
  ⟨⟨by decide, by simp [payloadWF], by decide⟩,
    raw_network_message_roundtrip { magic := 3652501241, payload := .Ping 100 }
      (by decide) (by simp [payloadWF]) (by decide)⟩

/-- Counterexample for C1 as stated: the constructible envelope
`{magic 0xd9b4bef9, Headers(500000 headers)}` encodes successfully, but
decoding the encoder's output fails with the oversized-allocation error
(its 40500005-byte body exceeds `MAX_PAYLOAD_SIZE`), so
`decode(encode(v)) = v` does not hold for every constructible variant. -/
theorem raw_network_message_roundtrip_counterexample :
    (RawNetworkMessage.consensus_encode envHeadersBig).bind
        RawNetworkMessage.consensus_decode =
      .error (.oversizedVectorAllocation 40500005 MAX_PAYLOAD_SIZE) ∧
    (RawNetworkMessage.consensus_encode envHeadersBig).bind
        RawNetworkMessage.consensus_decode ≠ .ok (envHeadersBig, []) := by
  have h := consensus_decode_encode_oversized envHeadersBig
    (by rw [envHeadersBig_body_length]; decide)
    (by rw [envHeadersBig_body_length]; decide)
  rw [envHeadersBig_body_length] at h
  refine ⟨h, ?_⟩
  rw [h]
  intro hc
  exact Except.noConfusion hc

/-- An unknown command token falls through every dispatch arm to the
`UnrecognizedNetworkCommand` error carrying the token. -/
theorem decodePayload_unknown {tok : CommandString} (hn : tok ∉ knownTokens)
    (raw : Bytes) :
    decodePayload tok raw = .error (.unrecognizedNetworkCommand tok) := by
  simp only [knownTokens, List.mem_cons, List.not_mem_nil, or_false, not_or] at hn
  simp [decodePayload, hn]

/-- Command-string decode over a 12-byte prefix. -/
theorem commandString_decode_append {cmdB : Bytes} (h : cmdB.length = 12) (rest : Bytes) :
    CommandString.consensus_decode (cmdB ++ rest) =
      .ok (cmdB.filter (fun u => 0 < u), rest) := by
  simp [CommandString.consensus_decode, readN_of_length_eq rest h, bind, Except.bind]

theorem readN_error {n : Nat} {d : Bytes} {e : Err} (h : readN n d = .error e) :
    e = .truncated := by
  by_cases hl : n ≤ d.length <;> simp [readN, hl] at h
  exact h.symm

theorem blockHeaderDec_error {d : Bytes} {e : Err} (h : blockHeaderDec d = .error e) :
    e = .truncated := by
  by_cases hl : 80 ≤ d.length <;> simp [blockHeaderDec, hl] at h
  exact h.symm

/-- The element loop of the header-list decoder never raises the
oversized-allocation error: that error belongs to the pre-allocation check
alone. -/
theorem decodeHeadersLoop_no_oversized (n : Nat) (d : Bytes) (r mx : Nat) :
    decodeHeadersLoop n d ≠ .error (.oversizedVectorAllocation r mx) := by
  induction n generalizing d with
  | zero => simp [decodeHeadersLoop]
  | succ k ih =>
    rcases hx : blockHeaderDec d with e | v
    · obtain rfl := blockHeaderDec_error hx
      simp [decodeHeadersLoop, bind, Except.bind, hx]
    · rcases hy : readN 1 v.2 with e2 | w
      · obtain rfl := readN_error hy
        simp [decodeHeadersLoop, bind, Except.bind, hx, hy]
      · by_cases hz : leVal w.1 = 0
        · rcases hw : decodeHeadersLoop k w.2 with e3 | u
          · have hne := ih w.2
            rw [hw] at hne
            simpa [decodeHeadersLoop, bind, Except.bind, hx, hy, hz, hw] using hne
          · simp [decodeHeadersLoop, bind, Except.bind, hx, hy, hz, hw]
        · simp [decodeHeadersLoop, bind, Except.bind, hx, hy, hz]

theorem exceptBind_ok {α β : Type} (a : α) (f : α → Except Err β) :
    (Except.ok a).bind f = f a := rfl

theorem exceptBind_error {α β : Type} (e : Err) (f : α → Except Err β) :
    (Except.error e).bind f = .error e := rfl

/-- Splitting the envelope decoder at the magic field: the first four bytes
become the magic verbatim and the remainder is processed independently of
them. -/
theorem consensus_decode_split {magicB : Bytes} (h : magicB.length = 4) (rest : Bytes) :
    RawNetworkMessage.consensus_decode (magicB ++ rest) =
      (CommandString.consensus_decode rest).bind (fun x =>
        (CheckedData.consensus_decode x.2).bind (fun y =>
          (decodePayload x.1 y.1).bind (fun p =>
            .ok ({ magic := leVal magicB, payload := p }, y.2)))) := by
  simp only [RawNetworkMessage.consensus_decode, readN_of_length_eq rest h,
    bind, Except.bind]

/-- The header-list encode body written as one marker-terminated block per
header. -/
theorem encodeHeadersBody_flatten (hs : List BlockHeader) :
    encodeHeadersBody hs = (hs.map (fun h => blockHeaderEnc h ++ [0])).flatten := by
  induction hs with
  | nil => rfl
  | cons h t ih => simp [encodeHeadersBody, ih]

/-- C2 (amended): the variant → command-token mapping is injective (two
payloads share a token exactly when they are the same variant), consists of
exactly 25 distinct tokens — the source defines 25 variants, not 24 — and is
total in both directions within the known set: every variant's token is a
known token, the known-token list is exactly the image of the variants, and
whatever payload the decode routine selected by a variant's token produces
carries that same token. -/
theorem dispatch_table_spec :
    (∀ m1 m2 : NetworkMessage, m1.cmd = m2.cmd ↔ m1.tagOf = m2.tagOf) ∧
    allVariants.map NetworkMessage.cmd = knownTokens ∧
    knownTokens.dedup.length = 25 ∧
    (∀ m : NetworkMessage, m.cmd ∈ knownTokens) ∧
    (∀ (m : NetworkMessage) (raw : Bytes) (q : NetworkMessage),
      decodePayload m.cmd raw = .ok q → q.cmd = m.cmd) := by
  refine ⟨?_, by decide, by decide, ?_, decodePayload_cmd_eq⟩
  · intro m1 m2
    cases m1 <;> cases m2 <;>
      simp only [NetworkMessage.cmd, NetworkMessage.tagOf] <;> decide
  · intro m
    cases m <;> simp only [NetworkMessage.cmd] <;> decide

/-- Witness for C2 at the `ping` token over the 8-byte zero buffer. -/
theorem dispatch_table_spec_witness :
    decodePayload (NetworkMessage.cmd (.Ping 0)) (List.replicate 8 0) = .ok (.Ping 0) ∧
    NetworkMessage.cmd (.Ping 0) = NetworkMessage.cmd (.Ping 0) :=
  ⟨by decide,
    dispatch_table_spec.2.2.2.2 (.Ping 0) (List.replicate 8 0) (.Ping 0) (by decide)⟩

/-- Counterexample for C2 as stated: the token table has 25 distinct entries,
so the claim's count of exactly 24 distinct tokens is false. -/
theorem dispatch_table_count_counterexample :
    (allVariants.map NetworkMessage.cmd).dedup.length = 25 ∧
    ¬ ((allVariants.map NetworkMessage.cmd).dedup.length = 24) :=
  ⟨by decide, by decide⟩

/-- C3: `CommandString::consensus_encode` fails exactly on strings longer than
12 bytes, with `UnrecognizedNetworkCommand` (the spec's `CommandTooLong`)
carrying the string, and on any string of length at most 12 it succeeds and
emits exactly 12 bytes: the string's bytes left-aligned followed by zero
padding. -/
theorem commandString_encode_spec (s : CommandString) :
    (∀ e, CommandString.consensus_encode s = .error e ↔
      (12 < s.length ∧ e = .unrecognizedNetworkCommand s)) ∧
    (s.length ≤ 12 →
      CommandString.consensus_encode s = .ok (s ++ List.replicate (12 - s.length) 0) ∧
      (s ++ List.replicate (12 - s.length) 0).length = 12) := by
  constructor
  · intro e
    by_cases h : 12 < s.length
    · simp [CommandString.consensus_encode, h, eq_comm]
    · simp [CommandString.consensus_encode, h]
  · intro h
    have h' : ¬ 12 < s.length := by omega
    constructor
    · simp [CommandString.consensus_encode, h']
    · simp; omega

/-- Witness for C3 at the 12-byte token `getcfheaders` and a 13-byte string. -/
theorem commandString_encode_spec_witness :
    ((str2bytes ("getcfheaders")).length ≤ 12 ∧
      CommandString.consensus_encode (str2bytes ("getcfheaders")) =
        .ok (str2bytes ("getcfheaders") ++
          List.replicate (12 - (str2bytes ("getcfheaders")).length) 0)) ∧
    CommandString.consensus_encode (List.replicate 13 65) =
      .error (.unrecognizedNetworkCommand (List.replicate 13 65)) := by
  refine ⟨⟨by decide, ((commandString_encode_spec (str2bytes ("getcfheaders"))).2 (by decide)).1⟩, ?_⟩
  exact ((commandString_encode_spec (List.replicate 13 65)).1
    (.unrecognizedNetworkCommand (List.replicate 13 65))).2 ⟨by decide, rfl⟩

/-- C4: `CommandString::consensus_decode` on a stream holding at least 12
bytes never fails and returns the strictly positive bytes of the first 12, in
their original order (interior zero bytes are dropped, not treated as
terminators), leaving the rest of the stream; the all-zero 12-byte input
decodes to the empty string; a stream shorter than 12 bytes fails. -/
theorem commandString_decode_spec (d : Bytes) :
    (12 ≤ d.length →
      CommandString.consensus_decode d =
        .ok ((d.take 12).filter (fun u => 0 < u), d.drop 12)) ∧
    (d.length < 12 → CommandString.consensus_decode d = .error .truncated) ∧
    CommandString.consensus_decode (List.replicate 12 0) = .ok ([], []) := by
  refine ⟨?_, ?_, by decide⟩
  · intro h
    simp [CommandString.consensus_decode, readN, h, bind, Except.bind]
  · intro h
    have h' : ¬ 12 ≤ d.length := by omega
    simp [CommandString.consensus_decode, readN, h', bind, Except.bind]

/-- Witness for C4 on a 13-byte input with an interior zero and on a short
input. -/
theorem commandString_decode_spec_witness :
    (12 ≤ ([1, 0, 2, 3, 0, 4, 5, 6, 0, 0, 7, 8, 9] : Bytes).length ∧
      CommandString.consensus_decode [1, 0, 2, 3, 0, 4, 5, 6, 0, 0, 7, 8, 9] =
        .ok ([1, 2, 3, 4, 5, 6, 7, 8], [9])) ∧
    (([1, 2, 3] : Bytes).length < 12 ∧
      CommandString.consensus_decode [1, 2, 3] = .error .truncated) := by
  constructor
  · exact ⟨by decide, by
      have := (commandString_decode_spec [1, 0, 2, 3, 0, 4, 5, 6, 0, 0, 7, 8, 9]).1 (by decide)
      simpa using this⟩
  · exact ⟨by decide, (commandString_decode_spec [1, 2, 3]).2.1 (by decide)⟩

/-- C5: envelope decode of a message whose 12-byte command field decodes to a
token outside the known set fails with `UnrecognizedNetworkCommand` (the
spec's `UnrecognizedCommand`) carrying the decoded token, and this is the
only dispatch-level error: when the selected variant-specific decode routine
fails, its error is returned to the caller unchanged, not wrapped. -/
theorem envelope_dispatch_error_spec :
    (∀ (magicB cmdB body rest : Bytes), magicB.length = 4 → cmdB.length = 12 →
      cmdB.filter (fun u => 0 < u) ∉ knownTokens → body.length ≤ MAX_PAYLOAD_SIZE →
      RawNetworkMessage.consensus_decode
          (magicB ++ (cmdB ++ (CheckedData.consensus_encode body ++ rest))) =
        .error (.unrecognizedNetworkCommand (cmdB.filter (fun u => 0 < u)))) ∧
    (∀ (magicB cmdB body rest : Bytes) (e : Err), magicB.length = 4 →
      cmdB.length = 12 → body.length ≤ MAX_PAYLOAD_SIZE →
      decodePayload (cmdB.filter (fun u => 0 < u)) body = .error e →
      RawNetworkMessage.consensus_decode
          (magicB ++ (cmdB ++ (CheckedData.consensus_encode body ++ rest))) =
        .error e) := by
  constructor
  · intro magicB cmdB body rest h4 h12 hn hb
    rw [consensus_decode_split h4, commandString_decode_append h12]
    simp [bind, Except.bind, checkedData_roundtrip hb, decodePayload_unknown hn]
  · intro magicB cmdB body rest e h4 h12 hb hd
    rw [consensus_decode_split h4, commandString_decode_append h12]
    simp [bind, Except.bind, checkedData_roundtrip hb, hd]

/-- Witness for C5: an all-`B` command token is rejected as unrecognized, and
a `version` command over an empty frame body returns the version routine's
own short-read error unchanged. -/
theorem envelope_dispatch_error_spec_witness :
    RawNetworkMessage.consensus_decode
        ([249, 190, 180, 217] ++ (List.replicate 12 66 ++
          (CheckedData.consensus_encode [] ++ []))) =
      .error (.unrecognizedNetworkCommand
        ((List.replicate 12 66).filter (fun u => 0 < u))) ∧
    RawNetworkMessage.consensus_decode
        ([249, 190, 180, 217] ++ ((str2bytes ("version") ++ List.replicate 5 0) ++
          (CheckedData.consensus_encode [] ++ []))) = .error .truncated :=
  ⟨envelope_dispatch_error_spec.1 [249, 190, 180, 217] (List.replicate 12 66) [] []
      (by decide) (by decide) (by decide) (by decide),
    envelope_dispatch_error_spec.2 [249, 190, 180, 217]
      (str2bytes ("version") ++ List.replicate 5 0) [] [] .truncated
      (by decide) (by decide) (by decide) (by decide)⟩

/-- C6: header-list encode writes, after the count, each header's encoding
followed by a single zero marker byte; the decoder's element loop decodes one
header then reads one byte per declared element, fails with the
protocol-violation parse error (the spec's `ProtocolViolation`, message
`Headers message should not contain transactions`) exactly when that marker
byte is nonzero, and continues past the marker check exactly when it is
zero. -/
theorem headers_marker_spec :
    (∀ hs : List BlockHeader, HeaderSerializationWrapper.consensus_encode hs =
      varIntEnc hs.length ++ (hs.map (fun h => blockHeaderEnc h ++ [0])).flatten) ∧
    (∀ (n : Nat) (hb : Bytes) (b : Nat) (rest : Bytes) (h80 : hb.length = 80),
      (b ≠ 0 → decodeHeadersLoop (n + 1) (hb ++ b :: rest) =
        .error (.parseFailed ("Headers message should not contain transactions"))) ∧
      (b = 0 → decodeHeadersLoop (n + 1) (hb ++ b :: rest) =
        (decodeHeadersLoop n rest).map
          (fun x => ((⟨hb, h80⟩ : BlockHeader) :: x.1, x.2)))) := by
  constructor
  · intro hs
    rw [HeaderSerializationWrapper.consensus_encode, encodeHeadersBody_flatten]
  · intro n hb b rest h80
    have hdec : blockHeaderDec (hb ++ b :: rest) = .ok (⟨hb, h80⟩, b :: rest) := by
      simpa [blockHeaderEnc] using blockHeaderEnc_dec ⟨hb, h80⟩ (b :: rest)
    have h1 : readN 1 (b :: rest) = .ok ([b], rest) := by
      simpa using @readN_of_length_eq 1 [b] rest rfl
    constructor
    · intro hbne
      simp [decodeHeadersLoop, bind, Except.bind, hdec, h1, leVal, hbne]
    · intro hb0
      subst hb0
      simp only [decodeHeadersLoop, bind, Except.bind, hdec, h1, leVal]
      rcases hw : decodeHeadersLoop n rest with e | u <;> simp [hw, Except.map]

/-- Witness for C6 on one 80-byte zero header followed by marker 1 (rejected)
and marker 0 (accepted). -/
theorem headers_marker_spec_witness :
    decodeHeadersLoop 1 (List.replicate 80 0 ++ 1 :: []) =
      .error (.parseFailed ("Headers message should not contain transactions")) ∧
    decodeHeadersLoop 1 (List.replicate 80 0 ++ 0 :: []) =
      (decodeHeadersLoop 0 []).map (fun x =>
        ((⟨List.replicate 80 0, by decide⟩ : BlockHeader) :: x.1, x.2)) :=
  ⟨(headers_marker_spec.2 0 (List.replicate 80 0) 1 [] (by decide)).1 (by decide),
    (headers_marker_spec.2 0 (List.replicate 80 0) 0 [] (by decide)).2 rfl⟩

/-- C7: header-list decode fails with the oversized-allocation error carrying
`{requested = count × sizeof(header), max}` whenever that byte size exceeds
`MAX_PAYLOAD_SIZE` (and does not overflow), and it does so immediately after
reading the count, before decoding any element — the trailing bytes are
arbitrary; when the byte size is within the bound, no oversized-allocation
error is ever raised by the routine. -/
theorem headers_oversized_spec :
    (∀ (len : Nat) (rest : Bytes), len * SIZE_OF_BLOCK_HEADER < USIZE_BOUND →
      MAX_PAYLOAD_SIZE < len * SIZE_OF_BLOCK_HEADER →
      HeaderDeserializationWrapper.consensus_decode (varIntEnc len ++ rest) =
        .error (.oversizedVectorAllocation (len * SIZE_OF_BLOCK_HEADER)
          MAX_PAYLOAD_SIZE)) ∧
    (∀ (len : Nat) (rest : Bytes) (r mx : Nat),
      len * SIZE_OF_BLOCK_HEADER ≤ MAX_PAYLOAD_SIZE →
      HeaderDeserializationWrapper.consensus_decode (varIntEnc len ++ rest) ≠
        .error (.oversizedVectorAllocation r mx)) := by
  constructor
  · intro len rest h1 h2
    have hlen : len < 18446744073709551616 := by
      unfold SIZE_OF_BLOCK_HEADER USIZE_BOUND at h1
      omega
    have hno : ¬ (len * SIZE_OF_BLOCK_HEADER ≥ USIZE_BOUND) := by omega
    simp [HeaderDeserializationWrapper.consensus_decode, varIntEnc_dec hlen,
      bind, Except.bind, hno, h2]
  · intro len rest r mx hle
    have hlen : len < 18446744073709551616 := by
      unfold SIZE_OF_BLOCK_HEADER MAX_PAYLOAD_SIZE at hle
      omega
    have hno : ¬ (len * SIZE_OF_BLOCK_HEADER ≥ USIZE_BOUND) := by
      unfold SIZE_OF_BLOCK_HEADER MAX_PAYLOAD_SIZE at hle
      unfold SIZE_OF_BLOCK_HEADER USIZE_BOUND
      omega
    have hns : ¬ (len * SIZE_OF_BLOCK_HEADER > MAX_PAYLOAD_SIZE) := by omega
    simp only [HeaderDeserializationWrapper.consensus_decode, varIntEnc_dec hlen,
      bind, Except.bind, hno, hns, if_false, ite_false]
    simpa using decodeHeadersLoop_no_oversized len rest r mx

/-- Witness for C7 at a count of 2^20 headers (83886080 bytes requested,
rejected) and a count of 0 (in bounds, never the oversized error). -/
theorem headers_oversized_spec_witness :
    HeaderDeserializationWrapper.consensus_decode (varIntEnc 1048576 ++ []) =
      .error (.oversizedVectorAllocation (1048576 * SIZE_OF_BLOCK_HEADER)
        MAX_PAYLOAD_SIZE) ∧
    HeaderDeserializationWrapper.consensus_decode (varIntEnc 0 ++ []) ≠
      .error (.oversizedVectorAllocation 0 0) :=
  ⟨headers_oversized_spec.1 1048576 [] (by decide) (by decide),
    headers_oversized_spec.2 0 [] 0 0 (by decide)⟩

/-- C8: the envelope decoder performs no validation of the 4-byte magic
field: the decoded envelope's magic is exactly the little-endian value of the
input's first four bytes, and replacing those four bytes by any other four
bytes changes neither success nor failure nor anything else in the result
beyond the magic itself. -/
theorem magic_field_spec :
    (∀ (magicB rest lft : Bytes) (env : RawNetworkMessage), magicB.length = 4 →
      RawNetworkMessage.consensus_decode (magicB ++ rest) = .ok (env, lft) →
      env.magic = leVal magicB) ∧
    (∀ (m1 m2 rest : Bytes), m1.length = 4 → m2.length = 4 →
      (RawNetworkMessage.consensus_decode (m1 ++ rest)).map
          (fun x => (x.1.payload, x.2)) =
        (RawNetworkMessage.consensus_decode (m2 ++ rest)).map
          (fun x => (x.1.payload, x.2))) := by
  constructor
  · intro magicB rest lft env h4 hdec
    rw [consensus_decode_split h4] at hdec
    rcases h1 : CommandString.consensus_decode rest with e | x
    · simp only [h1, exceptBind_error] at hdec
      exact Except.noConfusion hdec
    · simp only [h1, exceptBind_ok] at hdec
      rcases h2 : CheckedData.consensus_decode x.2 with e | y
      · simp only [h2, exceptBind_error] at hdec
        exact Except.noConfusion hdec
      · simp only [h2, exceptBind_ok] at hdec
        rcases h3 : decodePayload x.1 y.1 with e | p
        · simp only [h3, exceptBind_error] at hdec
          exact Except.noConfusion hdec
        · simp only [h3, exceptBind_ok, Except.ok.injEq, Prod.mk.injEq] at hdec
          rw [← hdec.1]
  · intro m1 m2 rest h1 h2
    rw [consensus_decode_split h1, consensus_decode_split h2]
    rcases hx : CommandString.consensus_decode rest with e | x
    · simp only [hx, exceptBind_error]
    · simp only [hx, exceptBind_ok]
      rcases hy : CheckedData.consensus_decode x.2 with e | y
      · simp only [hy, exceptBind_error]
      · simp only [hy, exceptBind_ok]
        rcases hz : decodePayload x.1 y.1 with e | p <;>
          simp [hz, exceptBind_error, exceptBind_ok, Except.map]

/-- Witness for C8: a successful `verack` decode has the magic of its first
four bytes, and swapping those bytes for `[1, 2, 3, 4]` leaves payload and
leftover unchanged. -/
theorem magic_field_spec_witness :
    ({ magic := 3652501241, payload := NetworkMessage.Verack } :
        RawNetworkMessage).magic = leVal [249, 190, 180, 217] ∧
    (RawNetworkMessage.consensus_decode ([249, 190, 180, 217] ++
        (str2bytes ("verack") ++ List.replicate 6 0 ++
          CheckedData.consensus_encode []))).map (fun x => (x.1.payload, x.2)) =
      (RawNetworkMessage.consensus_decode ([1, 2, 3, 4] ++
        (str2bytes ("verack") ++ List.replicate 6 0 ++
          CheckedData.consensus_encode []))).map (fun x => (x.1.payload, x.2)) :=
  ⟨magic_field_spec.1 [249, 190, 180, 217]
      (str2bytes ("verack") ++ List.replicate 6 0 ++ CheckedData.consensus_encode [])
      [] { magic := 3652501241, payload := NetworkMessage.Verack }
      (by decide) (by decide),
    magic_field_spec.2 [249, 190, 180, 217] [1, 2, 3, 4]
      (str2bytes ("verack") ++ List.replicate 6 0 ++ CheckedData.consensus_encode [])
      (by decide) (by decide)⟩

/-- C9: envelope encode can never fail with the command-too-long error: every
variant's command token is at most 12 bytes long, so the over-length branch
of the command-string encoder is unreachable from envelope encoding and the
encoder always succeeds. -/
theorem envelope_encode_never_command_too_long (m : RawNetworkMessage) :
    m.payload.cmd.length ≤ 12 ∧
    RawNetworkMessage.consensus_encode m =
      .ok (leBytes 4 m.magic ++
        (m.payload.cmd ++ List.replicate (12 - m.payload.cmd.length) 0) ++
        CheckedData.consensus_encode (serializePayload m.payload)) :=
  ⟨cmd_length_le m.payload, consensus_encode_eq m⟩

/-- C10: if the declared header count times the header size overflows the
64-bit machine word, the decoder returns the parse failure `Invalid length`
(the `checked_mul` branch) instead of wrapping around; the check covers every
representable count. -/
theorem headers_overflow_spec (len : Nat) (rest : Bytes)
    (h1 : len < USIZE_BOUND) (h2 : USIZE_BOUND ≤ len * SIZE_OF_BLOCK_HEADER) :
    HeaderDeserializationWrapper.consensus_decode (varIntEnc len ++ rest) =
      .error (.parseFailed ("Invalid length")) := by
  have hlen : len < 18446744073709551616 := by
    unfold USIZE_BOUND at h1
    exact h1
  have hge : len * SIZE_OF_BLOCK_HEADER ≥ USIZE_BOUND := h2
  simp [HeaderDeserializationWrapper.consensus_decode, varIntEnc_dec hlen,
    bind, Except.bind, hge]

/-- Witness for C10 at the maximal `u64` count `2^64 - 1`, whose byte size
overflows the machine word. -/
theorem headers_overflow_spec_witness :
    (18446744073709551615 : Nat) < USIZE_BOUND ∧
    USIZE_BOUND ≤ 18446744073709551615 * SIZE_OF_BLOCK_HEADER ∧
    HeaderDeserializationWrapper.consensus_decode
        (varIntEnc 18446744073709551615 ++ []) =
      .error (.parseFailed ("Invalid length")) :=
  ⟨by decide, by decide,
    headers_overflow_spec 18446744073709551615 [] (by decide) (by decide)⟩

end NetworkCodec
